import Mathlib

/-!
Shallow embedding of `src/rofi_calendar.py` (rofi-google-calendar).

Modelling conventions:
* A Python aware `datetime` is a pair of a local wall-clock value in
  microseconds since the epoch (`wallUs`) and a fixed UTC offset in
  minutes (`off`); the denoted instant is `wallUs - off * 60 * 1000000`.
  A `pytz` timezone object is modelled as a fixed UTC offset in minutes
  (UTC = 0); DST transitions are not exercised by any claim.
* Python `timedelta.days` is floored division, so `Int.fdiv`/`Int.emod`
  are used throughout.
* Fallible Python code (`KeyError`, `ValueError`) is modelled with
  `Option`.
* Events are modelled with the Google API invariant that `start`/`end`
  each carry either a `dateTime` or a `date` field.
-/

/-- Microseconds in a day. -/
def usPerDay : Int := 86400000000

/-- Microseconds in an hour. -/
def usPerHour : Int := 3600000000

/-- Microseconds in a minute. -/
def usPerMinute : Int := 60000000

/-- An aware datetime: local wall clock in microseconds since the epoch
plus a fixed UTC offset in minutes. -/
structure DT where
  wallUs : Int
  off : Int
  deriving DecidableEq, Repr

/-- The absolute instant (microseconds since the epoch, UTC) denoted by an
aware datetime. -/
def DT.instant (d : DT) : Int := d.wallUs - d.off * usPerMinute

/-- Python `datetime.astimezone(tz)` on an aware value: same instant,
new offset. -/
def DT.astimezone (d : DT) (tz : Int) : DT :=
  ⟨d.instant + tz * usPerMinute, tz⟩

/-- Local time of day in microseconds (`0 ≤ _ < usPerDay`). -/
def DT.timeOfDay (d : DT) : Int := Int.emod d.wallUs usPerDay

/-- Local day number (days since the epoch, floored). -/
def DT.dayNumber (d : DT) : Int := Int.fdiv d.wallUs usPerDay

/-- Gregorian civil date from a day number (days since 1970-01-01),
Hinnant's `civil_from_days` algorithm. -/
def civil_from_days (z0 : Int) : Int × Int × Int :=
  let z := z0 + 719468
  let era := Int.fdiv z 146097
  let doe := z - era * 146097
  let yoe := (doe - doe / 1460 + doe / 36524 - doe / 146096) / 365
  let y := yoe + era * 400
  let doy := doe - (365 * yoe + yoe / 4 - yoe / 100)
  let mp := (5 * doy + 2) / 153
  let d := doy - (153 * mp + 2) / 5 + 1
  let m := mp + (if mp < 10 then 3 else -9)
  (y + (if m ≤ 2 then 1 else 0), m, d)

/-- Day number (days since 1970-01-01) of a Gregorian civil date,
Hinnant's `days_from_civil` algorithm. -/
def days_from_civil (y0 m d : Int) : Int :=
  let y := y0 - (if m ≤ 2 then 1 else 0)
  let era := Int.fdiv y 400
  let yoe := y - era * 400
  let doy := (153 * (m + (if 2 < m then -3 else 9)) + 2) / 5 + d - 1
  let doe := yoe * 365 + yoe / 4 - yoe / 100 + doy
  era * 146097 + doe - 719468

/-- Decimal rendering of a natural number left-padded with zeros to a
given width (Python `%02d`-style). -/
def padNum (width : Nat) (n : Nat) : String :=
  let s := toString n
  String.mk (List.replicate (width - s.length) '0') ++ s

/-- Python `strftime("%Y-%m-%d")` on an aware datetime. -/
def DT.strftimeYMD (d : DT) : String :=
  let c := civil_from_days d.dayNumber
  padNum 4 c.1.toNat ++ "-" ++ padNum 2 c.2.1.toNat ++ "-" ++ padNum 2 c.2.2.toNat

/-- Python `strftime("%H:%M")` on an aware datetime. -/
def DT.strftimeHM (d : DT) : String :=
  let t := d.timeOfDay
  padNum 2 (t / usPerHour).toNat ++ ":" ++ padNum 2 (Int.emod (t / usPerMinute) 60).toNat

/-- UTC-offset suffix as rendered by Python `datetime.isoformat`
(e.g. `+00:00`). -/
def offsetSuffix (off : Int) : String :=
  let sign := if off < 0 then "-" else "+"
  let a := off.natAbs
  sign ++ padNum 2 (a / 60) ++ ":" ++ padNum 2 (a % 60)

/-- Python `datetime.isoformat()` on an aware datetime (microseconds are
omitted when zero, exactly as in CPython). -/
def DT.isoformat (d : DT) : String :=
  let t := d.timeOfDay
  let us := Int.emod t 1000000
  d.strftimeYMD ++ "T" ++ padNum 2 (t / usPerHour).toNat ++ ":"
    ++ padNum 2 (Int.emod (t / usPerMinute) 60).toNat ++ ":"
    ++ padNum 2 (Int.emod (t / 1000000) 60).toNat
    ++ (if us = 0 then "" else "." ++ padNum 6 us.toNat)
    ++ offsetSuffix d.off

/-- Python `datetime.now(tz)`: the current instant viewed at offset `tz`.
The ambient instant is a parameter of the embedding. -/
def datetime_now (nowInstant : Int) (tz : Int) : DT :=
  ⟨nowInstant + tz * usPerMinute, tz⟩

/-- `d.replace(hour=23, minute=59, second=59, microsecond=999999)`:
end of the local day `d` falls on. -/
def DT.replaceEndOfDay (d : DT) : DT :=
  ⟨d.dayNumber * usPerDay + (usPerDay - 1), d.off⟩

/-- `(a - b).days` for aware datetimes: Python `timedelta.days` floors. -/
def timedeltaDays (a b : DT) : Int :=
  Int.fdiv (a.instant - b.instant) usPerDay

/-! ### `datetime.fromisoformat` -/

/-- Value of an ASCII digit character. -/
def digitVal (c : Char) : Option Nat :=
  if c.isDigit then some (c.toNat - 48) else none

/-- Parse exactly `n` decimal digits, most significant first. -/
def parseDigits : Nat → Nat → List Char → Option (Nat × List Char)
  | 0, acc, cs => some (acc, cs)
  | n + 1, acc, c :: cs =>
    match digitVal c with
    | some d => parseDigits n (acc * 10 + d) cs
    | none => none
  | _ + 1, _, [] => none

/-- Consume one expected character. -/
def expectChar (c : Char) : List Char → Option (List Char)
  | x :: xs => if x = c then some xs else none
  | [] => none

/-- Number of days in a Gregorian month. -/
def days_in_month (y m : Nat) : Nat :=
  if m = 2 then
    if y % 4 = 0 ∧ (y % 100 ≠ 0 ∨ y % 400 = 0) then 29 else 28
  else if m = 4 ∨ m = 6 ∨ m = 9 ∨ m = 11 then 30
  else 31

/-- Parse `YYYY-MM-DD` with range validation. -/
def parseDatePart (cs : List Char) : Option ((Nat × Nat × Nat) × List Char) := do
  let (y, cs) ← parseDigits 4 0 cs
  let cs ← expectChar '-' cs
  let (m, cs) ← parseDigits 2 0 cs
  let cs ← expectChar '-' cs
  let (d, cs) ← parseDigits 2 0 cs
  if 1 ≤ m ∧ m ≤ 12 ∧ 1 ≤ d ∧ d ≤ days_in_month y m then
    some ((y, m, d), cs)
  else none

/-- Parse an optional `±HH:MM` or `Z` UTC-offset suffix; fails on any
other trailing text. -/
def parseOffsetPart (cs : List Char) : Option (Option Int) :=
  match cs with
  | [] => some none
  | 'Z' :: [] => some (some 0)
  | '+' :: cs => do
    let (h, cs) ← parseDigits 2 0 cs
    let cs ← expectChar ':' cs
    let (m, cs) ← parseDigits 2 0 cs
    if cs = [] ∧ m < 60 then some (some ((h : Int) * 60 + m)) else none
  | '-' :: cs => do
    let (h, cs) ← parseDigits 2 0 cs
    let cs ← expectChar ':' cs
    let (m, cs) ← parseDigits 2 0 cs
    if cs = [] ∧ m < 60 then some (some (-((h : Int) * 60 + m))) else none
  | _ => none

/-- Parse the time-of-day and offset: `HH:MM[:SS[.ffffff]][±HH:MM|Z]`.
Returns wall-clock microseconds within the day plus the optional offset. -/
def parseTimePart (cs : List Char) : Option (Int × Option Int) := do
  let (h, cs) ← parseDigits 2 0 cs
  let cs ← expectChar ':' cs
  let (mi, cs) ← parseDigits 2 0 cs
  if h ≤ 23 ∧ mi ≤ 59 then
    let step : Option (Nat × List Char) :=
      match cs with
      | ':' :: cs => do
        let (s, cs) ← parseDigits 2 0 cs
        if s ≤ 59 then
          match cs with
          | '.' :: cs => do
            let (f, cs) ← parseDigits 6 0 cs
            some (s * 1000000 + f, cs)
          | _ => some (s * 1000000, cs)
        else none
      | _ => some (0, cs)
    match step with
    | some (subUs, cs) => do
      let off ← parseOffsetPart cs
      some ((h : Int) * usPerHour + (mi : Int) * usPerMinute + (subUs : Int), off)
    | none => none
  else none

/-- Python `datetime.fromisoformat`: parses a date or date-time string,
returning the wall-clock value in microseconds since the epoch and the
UTC offset when the string carries one (aware) or `none` (naive).
`none` overall models `ValueError`. -/
def fromisoformat (s : String) : Option (Int × Option Int) :=
  match parseDatePart s.data with
  | none => none
  | some ((y, m, d), rest) =>
    let base := days_from_civil (y : Int) (m : Int) (d : Int) * usPerDay
    match rest with
    | [] => some (base, none)
    | 'T' :: cs =>
      match parseTimePart cs with
      | some (tod, off) => some (base + tod, off)
      | none => none
    | ' ' :: cs =>
      match parseTimePart cs with
      | some (tod, off) => some (base + tod, off)
      | none => none
    | _ => none

/-! ### Configuration and time-range resolution -/

/-- The effective configuration (the `settings()` dictionary). The
`pytz` timezone identifier is modelled by its fixed UTC offset in
minutes (`"UTC"` is offset `0`). `start_date`/`end_date` model
`config.get(...)`: `none` when the key is absent. -/
structure Config where
  timezone : Int
  start_date : Option String
  end_date : Option String
  calendar_id : List String
  deriving DecidableEq, Repr

/-- `pytz.timezone(cfg.timezone).localize(naive)`: attach the zone's
offset to a naive wall-clock value. -/
def tz_localize (tz : Int) (wallUs : Int) : DT := ⟨wallUs, tz⟩

/-- Body of `start_date()` in the source: if the configuration carries a
truthy `start_date` string, parse it and localize it into the configured
timezone, otherwise take the current instant in that timezone; render
with `isoformat`. `none` models an uncaught exception (`ValueError` from
parsing, or `pytz` rejecting `localize` on an already-aware value). -/
def start_date_value (config : Config) (nowInstant : Int) : Option String :=
  let tz := config.timezone
  match config.start_date with
  | some s =>
    if s ≠ "" then
      match fromisoformat s with
      | some (wall, none) => some (tz_localize tz wall).isoformat
      | some (_, some _) => none
      | none => none
    else some (datetime_now nowInstant tz).isoformat
  | none => some (datetime_now nowInstant tz).isoformat

/-- Body of `end_date()` in the source (identical to `start_date()` with
the `end_date` key). -/
def end_date_value (config : Config) (nowInstant : Int) : Option String :=
  let tz := config.timezone
  match config.end_date with
  | some s =>
    if s ≠ "" then
      match fromisoformat s with
      | some (wall, none) => some (tz_localize tz wall).isoformat
      | some (_, some _) => none
      | none => none
    else some (datetime_now nowInstant tz).isoformat
  | none => some (datetime_now nowInstant tz).isoformat

/-- `@lru_cache` wrapper of `start_date()`: given the cache cell, return
the result and the updated cell. A cached value is returned untouched,
ignoring the current configuration and clock; exceptions (`none`) are
not cached, exactly as `functools.lru_cache` behaves. -/
def start_date_call (config : Config) (nowInstant : Int) :
    Option String → Option String × Option String
  | some v => (some v, some v)
  | none =>
    match start_date_value config nowInstant with
    | some v => (some v, some v)
    | none => (none, none)

/-- `@lru_cache` wrapper of `end_date()`. -/
def end_date_call (config : Config) (nowInstant : Int) :
    Option String → Option String × Option String
  | some v => (some v, some v)
  | none =>
    match end_date_value config nowInstant with
    | some v => (some v, some v)
    | none => (none, none)

/-! ### Events and fetching -/

/-- The `start`/`end` object of a Google Calendar event: either a timed
`dateTime` string or an all-day `date` string. -/
inductive EWhen where
  | timed (dateTime : String)
  | allDay (date : String)
  deriving DecidableEq, Repr

/-- `conferenceData`: the `conferenceId` key may be absent (malformed). -/
structure ConfData where
  conferenceId : Option String
  deriving DecidableEq, Repr

/-- A calendar event as consumed by the program. Optional keys are
`Option`; indexing an absent key raises `KeyError` (modelled `none`). -/
structure Event where
  summary : Option String
  conferenceData : Option ConfData
  start : EWhen
  end_ : EWhen
  deriving DecidableEq, Repr

/-- One page of a `service.events().list(...)` response. -/
structure Page where
  items : List Event
  nextPageToken : Option String
  deriving Repr

/-- `fetch_events(service, calendar_id, page_token)`: call the service,
and if the response carries a `nextPageToken`, recurse with it,
prepending this page's items. The service is abstracted as the map from
page token to response (calendar id and time bounds are fixed for one
fetch). Python's recursion is unbounded; `fuel` bounds it in the
embedding, with `none` modelling stack exhaustion on an endless chain. -/
def fetch_events (service : Option String → Page) :
    Nat → Option String → Option (List Event)
  | 0, _ => none
  | fuel + 1, page_token =>
    let events_result := service page_token
    match events_result.nextPageToken with
    | some next_page =>
      (fetch_events service fuel (some next_page)).map
        (fun rest => events_result.items ++ rest)
    | none => some events_result.items

/-- The chain of pages the service serves starting from a token:
each page is followed via its continuation cursor until the service
returns none. -/
def pageChain (service : Option String → Page) :
    Nat → Option String → Option (List Page)
  | 0, _ => none
  | fuel + 1, page_token =>
    let p := service page_token
    match p.nextPageToken with
    | some next_page => (pageChain service fuel (some next_page)).map (fun rest => p :: rest)
    | none => some [p]

/-! ### Event formatting (`format_event_line`) -/

/-- The tuple assignment resolving displayable start/end in
`format_event_line`: when both objects carry `dateTime`, parse and
convert with `astimezone` (a naive value is interpreted in the system
zone `sysOff`, as CPython does); otherwise index the `date` keys, parse,
and attach the configured zone with `replace(tzinfo=...)`. Indexing a
missing `date` key (mixed timed/all-day events) raises `KeyError`. -/
def resolve_times (s e : EWhen) (tz sysOff : Int) : Option (DT × DT) :=
  match s, e with
  | .timed sdt, .timed edt => do
    let (ws, os) ← fromisoformat sdt
    let (we, oe) ← fromisoformat edt
    some ((DT.mk ws (os.getD sysOff)).astimezone tz,
          (DT.mk we (oe.getD sysOff)).astimezone tz)
  | .allDay sd, .allDay ed => do
    let (ws, _) ← fromisoformat sd
    let (we, _) ← fromisoformat ed
    some (⟨ws, tz⟩, ⟨we, tz⟩)
  | _, _ => none

/-- `event["conferenceData"]["conferenceId"] if "conferenceData" in event
else ""`: absent `conferenceData` yields `""`; a present `conferenceData`
without `conferenceId` raises `KeyError` (`none`). -/
def event_conference_of (ev : Event) : Option String :=
  match ev.conferenceData with
  | some cd => cd.conferenceId
  | none => some ""

/-- The fixed conference-marker glyph (camera emoji plus a space). -/
def conference_glyph : String := "📹 "

/-- The marker expression `"📹 " if event_conference else ""`: the fixed
glyph when the conference id string is truthy, the empty string
otherwise. -/
def conference_marker (event_conference : String) : String :=
  if event_conference ≠ "" then conference_glyph else ""

/-- The day label: `difference = now_eod - event_start` in whole days;
`0 ↦ "Today"`, `-1 ↦ "Tomorrow"`, otherwise `strftime("%Y-%m-%d")`. -/
def day_label (now_eod event_start : DT) : String :=
  let difference := timedeltaDays now_eod event_start
  if difference = 0 then "Today"
  else if difference = -1 then "Tomorrow"
  else event_start.strftimeYMD

/-- The time label: `"All day"` when both local times equal
`time(0, 0)`, else `"HH:MM - HH:MM"`. -/
def time_label (event_start event_end : DT) : String :=
  if event_start.timeOfDay = 0 ∧ event_end.timeOfDay = 0 then "All day"
  else event_start.strftimeHM ++ " - " ++ event_end.strftimeHM

/-- Python left-justification `"{:<w}".format(s)`. -/
def ljust (s : String) (w : Nat) : String :=
  s ++ String.mk (List.replicate (w - s.length) ' ')

/-- Python `"{:w.w}".format(s)`: truncate to `w` characters, then pad. -/
def truncPad (s : String) (w : Nat) : String :=
  ljust (String.mk (s.data.take w)) w

/-- The final `"{:<12} {:16} {}{:46.46} {:<12}".format(...)` layout. -/
def render_line (day etime marker summary conf : String) : String :=
  ljust day 12 ++ " " ++ ljust etime 16 ++ " " ++ marker
    ++ truncPad summary 46 ++ " " ++ ljust conf 12

/-- `format_event_line(event)`: resolve start/end, read summary and
conference id, compute labels, and render the fixed-width line. The
ambient clock (`nowInstant`) and system zone (`sysOff`) are parameters
of the embedding; `none` models an uncaught exception. -/
def format_event_line (ev : Event) (config : Config) (nowInstant sysOff : Int) :
    Option String := do
  let tz := config.timezone
  let (event_start, event_end) ← resolve_times ev.start ev.end_ tz sysOff
  let event_summary ← ev.summary
  let event_conference ← event_conference_of ev
  let now := (datetime_now nowInstant tz).replaceEndOfDay
  let day := day_label now event_start
  let event_time := time_label event_start event_end
  some (render_line day event_time (conference_marker event_conference)
    event_summary event_conference)

/-! ### Sorting the aggregated list -/

/-- The sort key of `all_events.sort(key=...)`: the raw `dateTime`
string when present, else the raw `date` string. -/
def sortKey (ev : Event) : String :=
  match ev.start with
  | .timed dt => dt
  | .allDay d => d

/-- Python string `<`: strict lexicographic comparison of the two
character sequences by Unicode code point. -/
def pyStrLt : List Char → List Char → Bool
  | [], [] => false
  | [], _ :: _ => true
  | _ :: _, [] => false
  | a :: as, b :: bs =>
    if a.toNat < b.toNat then true
    else if b.toNat < a.toNat then false
    else pyStrLt as bs

/-- Strict comparison of two events by sort key (Python string `<`). -/
def sortKeyLt (a b : Event) : Bool := pyStrLt (sortKey a).data (sortKey b).data

/-- Insert an event into an already-sorted list, after every element
whose key is strictly smaller and before the first element whose key is
greater or equal: the stable insertion position. -/
def insertByKey (e : Event) : List Event → List Event
  | [] => [e]
  | x :: xs => if sortKeyLt x e then x :: insertByKey e xs else e :: x :: xs

/-- Stable insertion sort by `sortKey`; extensionally equal to CPython's
stable `list.sort(key=...)` (any two stable sorts by the same key
coincide). -/
def sortEvents : List Event → List Event
  | [] => []
  | x :: xs => insertByKey x (sortEvents xs)

/-- The UTC instant denoted by a timed event's start string (`none` for
all-day events or unparsable strings; a naive string has no absolute
instant of its own). -/
def timedStartInstant (ev : Event) : Option Int :=
  match ev.start with
  | .timed s =>
    match fromisoformat s with
    | some (w, some o) => some (w - o * usPerMinute)
    | _ => none
  | .allDay _ => none

/-! ### Entry point dispatch -/

/-- What a run of `main` does: open a meeting URL, fall through to the
fetch/format pipeline, or return without any action. -/
inductive MainAction where
  | openUrl (url : String)
  | runPipeline
  | nothing
  deriving DecidableEq, Repr

/-- ASCII word character (approximation of Python `\w`). -/
def isWordChar (c : Char) : Bool := c.isAlphanum || c = '_'

/-- The shape `\w{3}-\w{4}-\w{3}` on exactly twelve characters. -/
def confCodePattern : List Char → Bool
  | [c1, c2, c3, h1, c4, c5, c6, c7, h2, c8, c9, c10] =>
    isWordChar c1 && isWordChar c2 && isWordChar c3 && h1 = '-' &&
    isWordChar c4 && isWordChar c5 && isWordChar c6 && isWordChar c7 && h2 = '-' &&
    isWordChar c8 && isWordChar c9 && isWordChar c10
  | _ => false

/-- Python `re.search(".*(\w{3}-\w{4}-\w{3})$", s)` and group 1: `$`
also matches just before one trailing newline, `.` never matches a
newline but the match may start anywhere, so the search succeeds exactly
when the last twelve characters (ignoring one trailing newline) fit the
3-4-3 word-character pattern, and the captured group is those twelve
characters. -/
def conference_search (s : String) : Option String :=
  let cs := if s.data.getLast? = some '\n' then s.data.dropLast else s.data
  if 12 ≤ cs.length then
    let tail := cs.drop (cs.length - 12)
    if confCodePattern tail then some (String.mk tail) else none
  else none

/-- The dispatch of the source's `main(start, end, selection)` (named
`main_dispatch` here because Lean reserves `main`): a non-empty
selection is matched against the conference-code pattern and either
opens `https://meet.google.com/<code>` or returns without action;
otherwise (no selection, or the empty string) the fetch/format pipeline
runs. -/
def main_dispatch (selection : Option String) : MainAction :=
  match selection with
  | some s =>
    if s ≠ "" then
      match conference_search s with
      | some conference_id => .openUrl ("https://meet.google.com/" ++ conference_id)
      | none => .nothing
    else .runPipeline
  | none => .runPipeline


/-! ### Lemmas about the stable sort -/

theorem pyStrLt_irrefl : ∀ as : List Char, pyStrLt as as = false
  | [] => rfl
  | a :: as => by simp [pyStrLt, pyStrLt_irrefl as]

theorem pyStrLt_asymm : ∀ as bs : List Char,
    pyStrLt as bs = true → pyStrLt bs as = false
  | [], [], h => by simp [pyStrLt] at h
  | [], _ :: _, _ => rfl
  | _ :: _, [], h => by simp [pyStrLt] at h
  | a :: as, b :: bs, h => by
    simp only [pyStrLt] at h ⊢
    by_cases hab : a.toNat < b.toNat
    · have hba : ¬ b.toNat < a.toNat := by omega
      simp [hab, hba]
    · by_cases hba : b.toNat < a.toNat
      · simp [hab, hba] at h
      · simp only [hab, hba, if_false] at h ⊢
        exact pyStrLt_asymm as bs h

theorem pyStrLt_notlt_trans : ∀ as bs cs : List Char,
    pyStrLt bs as = false → pyStrLt cs bs = false → pyStrLt cs as = false
  | [], _, cs, _, _ => by cases cs <;> rfl
  | _ :: _, [], _, h1, _ => by simp [pyStrLt] at h1
  | _ :: _, _ :: _, [], _, h2 => by simp [pyStrLt] at h2
  | a :: as, b :: bs, c :: cs, h1, h2 => by
    simp only [pyStrLt] at h1 h2 ⊢
    by_cases hba : b.toNat < a.toNat
    · simp [hba] at h1
    · by_cases hcb : c.toNat < b.toNat
      · simp [hcb] at h2
      · have hca : ¬ c.toNat < a.toNat := by omega
        by_cases hac : a.toNat < c.toNat
        · simp [hca, hac]
        · have hab : ¬ a.toNat < b.toNat := by omega
          have hbc : ¬ b.toNat < c.toNat := by omega
          simp only [hba, hab, if_false] at h1
          simp only [hcb, hbc, if_false] at h2
          simp only [hca, hac, if_false]
          exact pyStrLt_notlt_trans as bs cs h1 h2

theorem mem_insertByKey {a e : Event} {l : List Event} :
    a ∈ insertByKey e l ↔ a = e ∨ a ∈ l := by
  induction l with
  | nil => simp [insertByKey]
  | cons x xs ih =>
    cases hxe : sortKeyLt x e with
    | true =>
      rw [insertByKey, if_pos hxe]
      simp only [List.mem_cons, ih]
      tauto
    | false =>
      rw [insertByKey, if_neg (by simp [hxe])]
      simp only [List.mem_cons]

theorem pairwise_insertByKey {e : Event} {l : List Event}
    (hl : l.Pairwise (fun a b => sortKeyLt b a = false)) :
    (insertByKey e l).Pairwise (fun a b => sortKeyLt b a = false) := by
  induction l with
  | nil => simp [insertByKey]
  | cons x xs ih =>
    rcases List.pairwise_cons.mp hl with ⟨hx, hxs⟩
    cases hxe : sortKeyLt x e with
    | true =>
      rw [insertByKey, if_pos hxe]
      refine List.pairwise_cons.mpr ⟨?_, ih hxs⟩
      intro y hy
      rcases mem_insertByKey.mp hy with rfl | hy'
      · exact pyStrLt_asymm _ _ hxe
      · exact hx y hy'
    | false =>
      rw [insertByKey, if_neg (by simp [hxe])]
      refine List.pairwise_cons.mpr ⟨?_, hl⟩
      intro y hy
      rcases List.mem_cons.mp hy with rfl | hy'
      · exact hxe
      · exact pyStrLt_notlt_trans _ _ _ hxe (hx y hy')

theorem perm_insertByKey (e : Event) (l : List Event) :
    (insertByKey e l).Perm (e :: l) := by
  induction l with
  | nil => exact List.Perm.refl _
  | cons x xs ih =>
    cases hxe : sortKeyLt x e with
    | true =>
      rw [insertByKey, if_pos hxe]
      exact (ih.cons x).trans (List.Perm.swap e x xs)
    | false =>
      rw [insertByKey, if_neg (by simp [hxe])]

theorem sortEvents_perm (l : List Event) : (sortEvents l).Perm l := by
  induction l with
  | nil => exact List.Perm.refl _
  | cons x xs ih => exact (perm_insertByKey x (sortEvents xs)).trans (ih.cons x)

theorem sortEvents_pairwise (l : List Event) :
    (sortEvents l).Pairwise (fun a b => sortKeyLt b a = false) := by
  induction l with
  | nil => exact List.Pairwise.nil
  | cons x xs ih => exact pairwise_insertByKey ih

theorem filter_insertByKey (k : String) (e : Event) (l : List Event) :
    (insertByKey e l).filter (fun x => sortKey x == k) =
      if sortKey e = k then e :: l.filter (fun x => sortKey x == k)
      else l.filter (fun x => sortKey x == k) := by
  induction l with
  | nil => by_cases hek : sortKey e = k <;> simp [insertByKey, hek]
  | cons x xs ih =>
    cases hxe : sortKeyLt x e with
    | true =>
      by_cases hek : sortKey e = k
      · have hx : ¬ sortKey x = k := by
          intro hxk
          rw [sortKeyLt, hxk, ← hek] at hxe
          rw [pyStrLt_irrefl] at hxe
          exact Bool.false_ne_true hxe
        rw [insertByKey, if_pos hxe]
        simp [List.filter_cons, hx, hek, ih]
      · rw [insertByKey, if_pos hxe]
        by_cases hx : sortKey x = k <;> simp [List.filter_cons, hek, hx, ih]
    | false =>
      rw [insertByKey, if_neg (by simp [hxe])]
      by_cases hek : sortKey e = k <;> simp [List.filter_cons, hek]

theorem filter_sortEvents (k : String) (l : List Event) :
    (sortEvents l).filter (fun x => sortKey x == k)
      = l.filter (fun x => sortKey x == k) := by
  induction l with
  | nil => rfl
  | cons x xs ih =>
    rw [sortEvents, filter_insertByKey, ih]
    by_cases h : sortKey x = k <;> simp [List.filter_cons, h]

/-- First event of the C1 counterexample: starts at instant
1717236000000000 (2024-06-01 10:00 UTC), but its sort key is the raw
string `"2024-06-01T12:00:00+02:00"`. -/
def evMixedA : Event :=
  ⟨some "A", none, .timed "2024-06-01T12:00:00+02:00", .timed "2024-06-01T13:00:00+02:00"⟩

/-- Second event of the C1 counterexample: starts at instant
1717239600000000 (2024-06-01 11:00 UTC), sort key
`"2024-06-01T11:00:00+00:00"`. -/
def evMixedB : Event :=
  ⟨some "B", none, .timed "2024-06-01T11:00:00+00:00", .timed "2024-06-01T12:00:00+00:00"⟩

/-- C1 (counterexample): the sort compares the raw ISO strings, so when
the aggregated list mixes UTC offsets, events with pairwise-distinct
start instants can be emitted in *decreasing* instant order: `evMixedA`
starts strictly before `evMixedB` (10:00 UTC vs 11:00 UTC), yet the
sorted output places `evMixedB` first. -/
theorem C1_counterexample :
    sortEvents [evMixedA, evMixedB] = [evMixedB, evMixedA]
    ∧ timedStartInstant evMixedA = some 1717236000000000
    ∧ timedStartInstant evMixedB = some 1717239600000000
    ∧ (1717236000000000 : Int) < 1717239600000000 :=
  ⟨by decide, by decide, by decide, by decide⟩

/-- C1 (amended): the pipeline stable-sorts the aggregated list
ascending by the derived key — the raw timed start string if present,
otherwise the raw all-day date string, compared as Python compares
strings (lexicographically by code point): the emitted order is
non-decreasing by key, any two events with equal keys keep their
pre-sort (calendar-list / fetch) relative order, and the output is a
permutation of the input. (The emitted order is non-decreasing by start
*instant* only when key-string order agrees with instant order, e.g.
when all keys share one UTC offset; see the counterexample.) -/
theorem C1_sorted_stable (l : List Event) :
    (sortEvents l).Pairwise (fun a b => sortKeyLt b a = false)
    ∧ (∀ k : String, (sortEvents l).filter (fun e => sortKey e == k)
        = l.filter (fun e => sortKey e == k))
    ∧ (sortEvents l).Perm l :=
  ⟨sortEvents_pairwise l, fun k => filter_sortEvents k l, sortEvents_perm l⟩

/-! ### C2: pagination -/

/-- A distinguishable event item for the pagination mocks. -/
def mkItem (s : String) : Event :=
  ⟨some s, none, .allDay "2024-01-01", .allDay "2024-01-02"⟩

/-- Mock service with three chained pages of sizes 2, 2 and 1. -/
def mock3_service : Option String → Page
  | none => ⟨[mkItem "e1", mkItem "e2"], some "t1"⟩
  | some "t1" => ⟨[mkItem "e3", mkItem "e4"], some "t2"⟩
  | some "t2" => ⟨[mkItem "e5"], none⟩
  | some _ => ⟨[], none⟩

/-- Mock service that never returns a continuation cursor. -/
def noCursor_service : Option String → Page
  | _ => ⟨[mkItem "a1", mkItem "a2"], none⟩

/-- C2: `fetch_events` follows the service's continuation cursor until
none is returned and yields the concatenation of all pages in the order
received (for every service, fuel and starting token, the result is
exactly the flattening of the page chain); in particular the three-page
2/2/1 mock yields its 5 items in page-then-item order and the
cursor-less mock yields its single page's items. -/
theorem C2_pagination :
    (∀ (service : Option String → Page) (fuel : Nat) (tok : Option String),
      fetch_events service fuel tok
        = (pageChain service fuel tok).map (fun ps => (ps.map Page.items).flatten))
    ∧ fetch_events mock3_service 10 none
        = some [mkItem "e1", mkItem "e2", mkItem "e3", mkItem "e4", mkItem "e5"]
    ∧ fetch_events noCursor_service 10 none = some [mkItem "a1", mkItem "a2"] := by
  refine ⟨?_, by decide, by decide⟩
  intro service fuel
  induction fuel with
  | zero => intro tok; rfl
  | succ n ih =>
    intro tok
    rw [fetch_events, pageChain]
    cases h : (service tok).nextPageToken with
    | some nxt =>
      simp only [h, ih, Option.map_map]
      cases pageChain service n (some nxt) <;> simp
    | none => simp [h]

/-! ### C3: time-range resolution and memoization -/

/-- The configuration of the C3 example: `timezone = "UTC"` (offset 0)
with override `start_date = "2024-01-01T00:00:00"`. -/
def utcOverrideConfig : Config := ⟨0, some "2024-01-01T00:00:00", none, []⟩

/-- C3: `start_date()`/`end_date()` resolve to a timezone-localized
instant — a truthy override string is parsed and localized into the
configured timezone, otherwise the current instant in that timezone is
used; the example override `"2024-01-01T00:00:00"` under UTC resolves to
`"2024-01-01T00:00:00+00:00"`; and each value is memoized: once a first
call has produced a value, every later call returns exactly that value
and cache, whatever configuration or clock it is given. -/
theorem C3_time_range :
    (∀ (config : Config) (nowInstant : Int) (s : String) (w : Int),
        config.start_date = some s → s ≠ "" → fromisoformat s = some (w, none) →
        start_date_value config nowInstant = some (DT.isoformat ⟨w, config.timezone⟩))
    ∧ (∀ (config : Config) (nowInstant : Int),
        config.start_date = none →
        start_date_value config nowInstant
          = some (datetime_now nowInstant config.timezone).isoformat)
    ∧ (∀ (config : Config) (nowInstant : Int) (s : String) (w : Int),
        config.end_date = some s → s ≠ "" → fromisoformat s = some (w, none) →
        end_date_value config nowInstant = some (DT.isoformat ⟨w, config.timezone⟩))
    ∧ (∀ (config : Config) (nowInstant : Int),
        config.end_date = none →
        end_date_value config nowInstant
          = some (datetime_now nowInstant config.timezone).isoformat)
    ∧ start_date_value utcOverrideConfig 0 = some "2024-01-01T00:00:00+00:00"
    ∧ (∀ (cfg1 cfg2 : Config) (now1 now2 : Int) (v : String),
        start_date_value cfg1 now1 = some v →
        start_date_call cfg2 now2 (start_date_call cfg1 now1 none).2 = (some v, some v))
    ∧ (∀ (cfg1 cfg2 : Config) (now1 now2 : Int) (v : String),
        end_date_value cfg1 now1 = some v →
        end_date_call cfg2 now2 (end_date_call cfg1 now1 none).2 = (some v, some v)) := by
  refine ⟨?_, ?_, ?_, ?_, by decide, ?_, ?_⟩
  · intro config nowInstant s w hs hne hp
    simp [start_date_value, hs, hne, hp, tz_localize]
  · intro config nowInstant hs
    simp [start_date_value, hs]
  · intro config nowInstant s w hs hne hp
    simp [end_date_value, hs, hne, hp, tz_localize]
  · intro config nowInstant hs
    simp [end_date_value, hs]
  · intro cfg1 cfg2 now1 now2 v h
    simp [start_date_call, h]
  · intro cfg1 cfg2 now1 now2 v h
    simp [end_date_call, h]

/-- Concrete instantiation of `C3_time_range`: the override example and
a memoized second call under a changed configuration and clock. -/
theorem C3_time_range_witness :
    start_date_value utcOverrideConfig 77
      = some (DT.isoformat ⟨1704067200000000, 0⟩)
    ∧ start_date_call ⟨120, none, none, []⟩ 555
        (start_date_call utcOverrideConfig 0 none).2
        = (some "2024-01-01T00:00:00+00:00", some "2024-01-01T00:00:00+00:00")
    ∧ end_date_call ⟨-60, none, none, []⟩ 999
        (end_date_call ⟨0, none, some "2024-01-01T00:00:00", []⟩ 0 none).2
        = (some "2024-01-01T00:00:00+00:00", some "2024-01-01T00:00:00+00:00") :=
  ⟨C3_time_range.1 utcOverrideConfig 77 "2024-01-01T00:00:00" 1704067200000000
      rfl (by decide) (by decide),
   C3_time_range.2.2.2.2.2.1 utcOverrideConfig ⟨120, none, none, []⟩ 0 555
      "2024-01-01T00:00:00+00:00" (by decide),
   C3_time_range.2.2.2.2.2.2 ⟨0, none, some "2024-01-01T00:00:00", []⟩
      ⟨-60, none, none, []⟩ 0 999 "2024-01-01T00:00:00+00:00" (by decide)⟩

/-! ### C4: resolving displayable start/end -/

/-- C4: when both `start` and `end` carry timed `dateTime` fields,
`format_event_line`'s resolution converts both to the configured target
timezone preserving the denoted instants; for all-day events the `date`
fields are interpreted as midnight (wall-clock zero) in the target
timezone. -/
theorem C4_resolve :
    (∀ (sdt edt : String) (tz sysOff ws we os oe : Int),
        fromisoformat sdt = some (ws, some os) →
        fromisoformat edt = some (we, some oe) →
        ∃ d1 d2, resolve_times (.timed sdt) (.timed edt) tz sysOff = some (d1, d2)
          ∧ d1.off = tz ∧ d2.off = tz
          ∧ d1.instant = ws - os * usPerMinute
          ∧ d2.instant = we - oe * usPerMinute)
    ∧ (∀ (sd ed : String) (tz sysOff ws we : Int) (os oe : Option Int),
        fromisoformat sd = some (ws, os) →
        fromisoformat ed = some (we, oe) →
        Int.emod ws usPerDay = 0 → Int.emod we usPerDay = 0 →
        ∃ d1 d2, resolve_times (.allDay sd) (.allDay ed) tz sysOff = some (d1, d2)
          ∧ d1.off = tz ∧ d2.off = tz ∧ d1.wallUs = ws ∧ d2.wallUs = we
          ∧ d1.timeOfDay = 0 ∧ d2.timeOfDay = 0) := by
  constructor
  · intro sdt edt tz sysOff ws we os oe h1 h2
    refine ⟨(DT.mk ws os).astimezone tz, (DT.mk we oe).astimezone tz,
      ?_, rfl, rfl, ?_, ?_⟩
    · simp [resolve_times, h1, h2]
    · simp [DT.instant, DT.astimezone]
    · simp [DT.instant, DT.astimezone]
  · intro sd ed tz sysOff ws we os oe h1 h2 hm1 hm2
    refine ⟨⟨ws, tz⟩, ⟨we, tz⟩, ?_, rfl, rfl, rfl, rfl, ?_, ?_⟩
    · simp [resolve_times, h1, h2]
    · simpa [DT.timeOfDay] using hm1
    · simpa [DT.timeOfDay] using hm2

/-- Concrete instantiation of `C4_resolve`: a timed event with offset
+02:00 converted into zone -180 (instants preserved), and the
`2024-06-01` all-day pair resolved to local midnights. -/
theorem C4_resolve_witness :
    (∃ d1 d2, resolve_times (.timed "2024-06-01T12:00:00+02:00")
          (.timed "2024-06-01T13:00:00+02:00") (-180) 0 = some (d1, d2)
        ∧ d1.off = -180 ∧ d2.off = -180
        ∧ d1.instant = 1717243200000000 - 120 * usPerMinute
        ∧ d2.instant = 1717246800000000 - 120 * usPerMinute)
    ∧ (∃ d1 d2, resolve_times (.allDay "2024-06-01") (.allDay "2024-06-02") (-180) 0
          = some (d1, d2)
        ∧ d1.off = -180 ∧ d2.off = -180
        ∧ d1.wallUs = 1717200000000000 ∧ d2.wallUs = 1717286400000000
        ∧ d1.timeOfDay = 0 ∧ d2.timeOfDay = 0) :=
  ⟨C4_resolve.1 "2024-06-01T12:00:00+02:00" "2024-06-01T13:00:00+02:00"
      (-180) 0 1717243200000000 1717246800000000 120 120 (by decide) (by decide),
   C4_resolve.2 "2024-06-01" "2024-06-02" (-180) 0 1717200000000000 1717286400000000
      none none (by decide) (by decide) (by decide) (by decide)⟩

/-! ### C5: the day label -/

/-- C5: the day label is determined by
`delta = (now advanced to 23:59:59.999999 of the current local day) − event start`
taken in whole (floored) days: `0 ↦ "Today"`, `-1 ↦ "Tomorrow"`, any
other delta yields the event's local date as `YYYY-MM-DD`; illustrated
at a fixed clock (2024-06-01 01:00 UTC) for a same-day, next-day,
two-days-ahead and two-days-past event start. -/
theorem C5_day_label :
    (∀ (nowInstant tz : Int) (es : DT),
      day_label ((datetime_now nowInstant tz).replaceEndOfDay) es =
        (if Int.fdiv (((datetime_now nowInstant tz).replaceEndOfDay).instant - es.instant)
            usPerDay = 0 then "Today"
         else if Int.fdiv (((datetime_now nowInstant tz).replaceEndOfDay).instant - es.instant)
            usPerDay = -1 then "Tomorrow"
         else es.strftimeYMD))
    ∧ day_label (DT.replaceEndOfDay (datetime_now (19875 * usPerDay + usPerHour) 0))
        ⟨19875 * usPerDay + 9 * usPerHour, 0⟩ = "Today"
    ∧ day_label (DT.replaceEndOfDay (datetime_now (19875 * usPerDay + usPerHour) 0))
        ⟨19876 * usPerDay + 9 * usPerHour, 0⟩ = "Tomorrow"
    ∧ day_label (DT.replaceEndOfDay (datetime_now (19875 * usPerDay + usPerHour) 0))
        ⟨19877 * usPerDay + 9 * usPerHour, 0⟩ = "2024-06-03"
    ∧ day_label (DT.replaceEndOfDay (datetime_now (19875 * usPerDay + usPerHour) 0))
        ⟨19873 * usPerDay + 9 * usPerHour, 0⟩ = "2024-05-30" :=
  ⟨fun _ _ _ => rfl, by decide, by decide, by decide, by decide⟩

/-! ### C6: the time label -/

theorem append_ne_allday (s1 s2 : String) : s1 ++ " - " ++ s2 ≠ "All day" := by
  intro h
  have hd : (s1 ++ " - " ++ s2).data = "All day".data := by rw [h]
  rw [String.data_append, String.data_append] at hd
  have hm : '-' ∈ "All day".data := by
    rw [← hd]
    simp
  simp at hm

/-- C6: the time label equals `"All day"` exactly when both resolved
local times are midnight, and otherwise is the `"HH:MM - HH:MM"` form
(which can never spell `"All day"`); in particular the event with
`start.date = end.date = "2024-06-01"` and no time fields resolves to a
label of exactly `"All day"`, and so does its full display line. -/
theorem C6_time_label :
    (∀ d1 d2 : DT, time_label d1 d2 = "All day"
        ↔ d1.timeOfDay = 0 ∧ d2.timeOfDay = 0)
    ∧ (resolve_times (.allDay "2024-06-01") (.allDay "2024-06-01") 0 0).map
        (fun p => time_label p.1 p.2) = some "All day"
    ∧ format_event_line
        ⟨some "Company event", none, .allDay "2024-06-01", .allDay "2024-06-01"⟩
        ⟨0, none, none, []⟩ (19875 * usPerDay) 0
      = some "Today        All day          Company event                                              " := by
  refine ⟨?_, by decide, by decide⟩
  intro d1 d2
  unfold time_label
  by_cases h : d1.timeOfDay = 0 ∧ d2.timeOfDay = 0
  · rw [if_pos h]; exact iff_of_true rfl h
  · rw [if_neg h]; exact iff_of_false (append_ne_allday _ _) h

/-! ### C7: fixed-width layout -/

theorem ljust_length (s : String) (w : Nat) : (ljust s w).length = max s.length w := by
  have h : (ljust s w).length = s.length + (w - s.length) := by
    show (s.data ++ List.replicate (w - s.data.length) ' ').length
      = s.data.length + (w - s.data.length)
    rw [List.length_append, List.length_replicate]
  rw [h]; omega

theorem truncPad_length (s : String) (w : Nat) : (truncPad s w).length = w := by
  rw [truncPad, ljust_length]
  have h : (String.mk (s.data.take w)).length = min w s.data.length :=
    List.length_take w s.data
  rw [h]; omega

/-- Modelled from the spec claim's words: the same five fields but with
a single space between *every* adjacent pair, including between the
conference marker and the summary. -/
def specRenderLine (day etime marker summary conf : String) : String :=
  ljust day 12 ++ " " ++ ljust etime 16 ++ " " ++ marker ++ " "
    ++ truncPad summary 46 ++ " " ++ ljust conf 12

/-- C7 (counterexample): the line `format_event_line` emits for a
concrete event is the source's `"{:<12} {:16} {}{:46.46} {:<12}"`
layout, which does *not* equal the claim's layout with a space between
the conference marker and the summary field. -/
theorem C7_counterexample :
    format_event_line
        ⟨some "Weekly sync", none, .allDay "2024-06-02", .allDay "2024-06-03"⟩
        ⟨0, none, none, []⟩ (19875 * usPerDay) 0
      = some (render_line "Tomorrow" "All day" "" "Weekly sync" "")
    ∧ render_line "Tomorrow" "All day" "" "Weekly sync" ""
        ≠ specRenderLine "Tomorrow" "All day" "" "Weekly sync" "" :=
  ⟨by decide, by decide⟩

/-- C7 (amended): every display line concatenates the day label
left-justified to width 12, one space, the time label left-justified to
width 16, one space, the conference marker, then — with no separating
space, the marker itself ending in a space when present — the summary
truncated and space-padded to exactly 46 characters, one space, and the
conference identifier left-justified to width 12. -/
theorem C7_layout (day etime marker summary conf : String) :
    render_line day etime marker summary conf
      = ljust day 12 ++ " " ++ ljust etime 16 ++ " " ++ marker
        ++ truncPad summary 46 ++ " " ++ ljust conf 12
    ∧ (truncPad summary 46).length = 46
    ∧ (ljust day 12).length = max day.length 12
    ∧ (ljust etime 16).length = max etime.length 16
    ∧ (ljust conf 12).length = max conf.length 12 :=
  ⟨rfl, truncPad_length summary 46, ljust_length day 12,
   ljust_length etime 16, ljust_length conf 12⟩

/-! ### C8: the conference marker -/

/-- The event of the C8 example, carrying
`conferenceData.conferenceId = "abc-defg-hij"`. -/
def standupEvent : Event :=
  ⟨some "Standup", some ⟨some "abc-defg-hij"⟩, .timed "2024-06-01T09:00:00+00:00",
   .timed "2024-06-01T10:00:00+00:00"⟩

/-- The display line `format_event_line` emits for `standupEvent` at
2024-06-01 00:00 UTC under UTC configuration. -/
def standupLine : String :=
  "Today        09:00 - 10:00    📹 Standup                                        abc-defg-hij"

/-- C8: the conference marker is the fixed non-empty glyph exactly when
the event's conference id string is non-empty and the empty string
otherwise (an absent `conferenceData` yields the empty id, a present one
yields its `conferenceId`); the example event with id `"abc-defg-hij"`
produces a line whose last 12 characters — the last field — are exactly
`"abc-defg-hij"`, with a non-empty marker. -/
theorem C8_conference :
    (∀ c : String, (conference_marker c ≠ "" ↔ c ≠ "")
      ∧ (conference_marker c = conference_glyph ∨ conference_marker c = ""))
    ∧ (∀ ev : Event, ev.conferenceData = none → event_conference_of ev = some "")
    ∧ (∀ (ev : Event) (cd : ConfData) (c : String),
        ev.conferenceData = some cd → cd.conferenceId = some c →
        event_conference_of ev = some c)
    ∧ format_event_line standupEvent ⟨0, none, none, []⟩ (19875 * usPerDay) 0
        = some standupLine
    ∧ standupLine.data.drop (standupLine.data.length - 12) = "abc-defg-hij".data
    ∧ conference_marker "abc-defg-hij" = conference_glyph
    ∧ conference_glyph ≠ "" := by
  refine ⟨?_, ?_, ?_, by decide, by decide, by decide, by decide⟩
  · intro c
    constructor
    · by_cases hc : c = "" <;>
        simp [conference_marker, hc, (by decide : conference_glyph ≠ "")]
    · by_cases hc : c = "" <;> simp [conference_marker, hc]
  · intro ev h
    simp [event_conference_of, h]
  · intro ev cd c h1 h2
    simp [event_conference_of, h1, h2]

/-- Concrete instantiation of `C8_conference`: the absent- and
present-`conferenceData` readings of the conference id. -/
theorem C8_conference_witness :
    event_conference_of ⟨some "S", none, .allDay "2024-06-01", .allDay "2024-06-01"⟩
      = some ""
    ∧ event_conference_of standupEvent = some "abc-defg-hij" :=
  ⟨C8_conference.2.1 ⟨some "S", none, .allDay "2024-06-01", .allDay "2024-06-01"⟩ rfl,
   C8_conference.2.2.1 standupEvent ⟨some "abc-defg-hij"⟩ "abc-defg-hij" rfl rfl⟩

/-! ### C9: selection dispatch -/

/-- C9 (counterexample): an *empty* selection string does not short-
circuit into "no action": the guard `selection != ""` sends it to the
fetch/format pipeline branch. -/
theorem C9_counterexample :
    main_dispatch (some "") = MainAction.runPipeline
    ∧ MainAction.runPipeline ≠ MainAction.nothing :=
  ⟨by decide, by decide⟩

/-- C9 (amended): a non-empty selection is matched against the trailing
3-4-3 word-character conference-code pattern; on a match the program
opens `https://meet.google.com/<code>` and on no match it returns
without action — in both cases without ever reaching the fetch/format
pipeline; an empty (or absent) selection instead falls through to the
pipeline; the documented example line opens its meeting URL. -/
theorem C9_dispatch (s : String) :
    (s ≠ "" → ∀ code : String, conference_search s = some code →
      main_dispatch (some s) = MainAction.openUrl ("https://meet.google.com/" ++ code))
    ∧ (s ≠ "" → conference_search s = none → main_dispatch (some s) = MainAction.nothing)
    ∧ main_dispatch (some "") = MainAction.runPipeline
    ∧ main_dispatch none = MainAction.runPipeline
    ∧ main_dispatch (some "Today 09:00 - 10:00 📹 Standup xyz-abcd-efg")
        = MainAction.openUrl "https://meet.google.com/xyz-abcd-efg" := by
  refine ⟨?_, ?_, by decide, rfl, by decide⟩
  · intro h code hm
    simp [main_dispatch, h, hm]
  · intro h hm
    simp [main_dispatch, h, hm]

/-- Concrete instantiation of `C9_dispatch`: an unmatched non-empty
selection triggers no action, a matched one opens its meeting URL. -/
theorem C9_dispatch_witness :
    main_dispatch (some "hello world") = MainAction.nothing
    ∧ main_dispatch (some "team xyz-abcd-efg")
        = MainAction.openUrl "https://meet.google.com/xyz-abcd-efg" :=
  ⟨(C9_dispatch "hello world").2.1 (by decide) (by decide),
   (C9_dispatch "team xyz-abcd-efg").1 (by decide) "xyz-abcd-efg" (by decide)⟩

/-! ### C10: handling of missing optional fields -/

/-- C10 (counterexample): an event without a `summary` key does *not*
get a display line — `event["summary"]` raises `KeyError` and
formatting fails. -/
theorem C10_counterexample :
    format_event_line ⟨none, none, .allDay "2024-06-01", .allDay "2024-06-02"⟩
      ⟨0, none, none, []⟩ 0 0 = none := by decide

/-- C10 (amended): only an *absent* `conferenceData` object is silently
treated as an empty conference id, still producing a display line; a
missing `summary`, or a `conferenceData` object lacking `conferenceId`,
makes formatting fail (`KeyError`) instead of producing a line. -/
theorem C10_lenient (ev : Event) (cfg : Config) (nowInstant sysOff : Int) :
    (∀ (d1 d2 : DT) (s : String),
      resolve_times ev.start ev.end_ cfg.timezone sysOff = some (d1, d2) →
      ev.summary = some s → ev.conferenceData = none →
      format_event_line ev cfg nowInstant sysOff
        = some (render_line
            (day_label ((datetime_now nowInstant cfg.timezone).replaceEndOfDay) d1)
            (time_label d1 d2) (conference_marker "") s ""))
    ∧ (ev.summary = none → format_event_line ev cfg nowInstant sysOff = none)
    ∧ (ev.conferenceData = some ⟨none⟩ →
        format_event_line ev cfg nowInstant sysOff = none) := by
  refine ⟨?_, ?_, ?_⟩
  · intro d1 d2 s hr hs hcd
    simp [format_event_line, hr, hs, hcd, event_conference_of]
  · intro hs
    cases hr : resolve_times ev.start ev.end_ cfg.timezone sysOff with
    | none => simp [format_event_line, hr]
    | some p => simp [format_event_line, hr, hs]
  · intro hcd
    cases hr : resolve_times ev.start ev.end_ cfg.timezone sysOff with
    | none => simp [format_event_line, hr]
    | some p =>
      cases hs : ev.summary with
      | none => simp [format_event_line, hr, hs]
      | some s => simp [format_event_line, hr, hs, event_conference_of, hcd]

/-- Concrete instantiation of `C10_lenient`: an event without
`conferenceData` still gets its line; an event whose `conferenceData`
lacks `conferenceId` fails. -/
theorem C10_lenient_witness :
    format_event_line ⟨some "Picnic", none, .allDay "2024-06-03", .allDay "2024-06-04"⟩
        ⟨0, none, none, []⟩ (19875 * usPerDay) 0
      = some (render_line "2024-06-03" "All day" (conference_marker "") "Picnic" "")
    ∧ format_event_line
        ⟨some "Broken", some ⟨none⟩, .allDay "2024-06-03", .allDay "2024-06-04"⟩
        ⟨0, none, none, []⟩ (19875 * usPerDay) 0 = none :=
  ⟨by
    have h := (C10_lenient
      ⟨some "Picnic", none, .allDay "2024-06-03", .allDay "2024-06-04"⟩
      ⟨0, none, none, []⟩ (19875 * usPerDay) 0).1
      ⟨19877 * usPerDay, 0⟩ ⟨19878 * usPerDay, 0⟩ "Picnic" (by decide) rfl rfl
    rw [h]
    decide,
   (C10_lenient ⟨some "Broken", some ⟨none⟩, .allDay "2024-06-03", .allDay "2024-06-04"⟩
      ⟨0, none, none, []⟩ (19875 * usPerDay) 0).2.2 rfl⟩
